import Mathlib

/-!
Verification of the sol-bridge-relayer core: a shallow embedding of
`src/main.rs` (the relay loop) and `src/models/message.rs` (the decoders),
with theorems settling the specification claims.

Modelling conventions:
- Rust `u8`/`u64` become `Nat` (no arithmetic here ever reaches a wrap).
- Byte buffers (`&[u8]`) become `List Nat`.
- Fallible Rust functions returning `anyhow::Result` become `Except String`.
- The external world of the relay loop (the L1 record fetched for an event
  index together with the L2 build/submit/confirm outcome) is an `Env`: for
  each index it either yields the transfer record `(amount, to_address)` and
  every step succeeds, or some step fails (`none`).
- The sequential `for` loop of `process_data_change` becomes structural
  recursion over the explicit list of indices, recording the trace of
  attempted indices and submitted transactions.
-/

/-- Embeds `MessageType` from `src/models/message.rs`: the one-byte
asset-kind tag with variants `Native = 0`, `Token = 1`, `NFT = 2`. -/
inductive MessageType where
  | Native
  | Token
  | NFT
deriving DecidableEq, Repr

/-- Embeds `MessageType::from_u8`: decodes the tag byte, failing on any
value other than 0, 1, 2. -/
def MessageType.from_u8 (value : Nat) : Except String MessageType :=
  match value with
  | 0 => Except.ok MessageType.Native
  | 1 => Except.ok MessageType.Token
  | 2 => Except.ok MessageType.NFT
  | _ => Except.error "Invalid MessageType value"

/-- Embeds the `NonceStatus` struct: the decoded counter of the watched
account. -/
structure NonceStatus where
  nonce : Nat
deriving DecidableEq, Repr

/-- Embeds Rust `u64::from_le_bytes`: little-endian base-256 value of a
byte list. -/
def u64_from_le_bytes (bs : List Nat) : Nat :=
  bs.foldr (fun b acc => b + 256 * acc) 0

/-- Embeds `NonceStatus::from_bytes`: requires at least 16 bytes and reads
the little-endian u64 at bytes 8..16. -/
def NonceStatus.from_bytes (data : List Nat) : Except String NonceStatus :=
  if data.length < 16 then
    Except.error "Insufficient account data length"
  else
    Except.ok ⟨u64_from_le_bytes ((data.drop 8).take 8)⟩

/-- The relay loop's external world, per event index: `none` means some step
of `send_l2_transfer` for that index fails (missing record, decode failure,
build failure, or submit/confirm failure); `some (amount, to)` means the
record at the derived address holds that transfer and every step up to and
including L2 confirmation succeeds. -/
structure Env where
  record : Nat → Option (Nat × Nat)

/-- Trace of one draining pass: which indices `send_l2_transfer` was called
on (in order), which transactions were confirmed on L2 (in order), and
whether the pass returned `Ok`. -/
structure DrainResult where
  attempted : List Nat
  submitted : List (Nat × Nat)
  ok : Bool
deriving DecidableEq, Repr

/-- Embeds the body of `process_data_change`'s `for` loop: process the given
indices in order, stopping at the first failing `send_l2_transfer` (Rust
`?` propagation aborts the loop). -/
def processList (env : Env) : List Nat → DrainResult
  | [] => ⟨[], [], true⟩
  | i :: rest =>
    match env.record i with
    | none => ⟨[i], [], false⟩
    | some r =>
      let d := processList env rest
      ⟨i :: d.attempted, r :: d.submitted, d.ok⟩

/-- The index list of Rust `start..new`: empty when `start ≥ new`, else
`[start, start+1, ..., new-1]`. -/
def rangeList (start new : Nat) : List Nat :=
  List.range' start (new - start)

/-- Embeds `Relayer::process_data_change`: drain from
`last_nonce.unwrap_or(0)` up to (excluding) `new_nonce`. -/
def process_data_change (env : Env) (last_nonce : Option Nat) (new_nonce : Nat) :
    DrainResult :=
  processList env (rangeList (last_nonce.getD 0) new_nonce)

/-- Outcome of one iteration of the `monitor_and_relay` loop. -/
structure TickResult where
  attempted : List Nat
  submitted : List (Nat × Nat)
  new_cursor : Option Nat
  ok : Bool
deriving DecidableEq, Repr

/-- Embeds one iteration of `Relayer::monitor_and_relay`, given the decoded
counter `n` observed this tick: if `last_nonce == Some(n)` nothing happens;
otherwise `process_data_change` runs and, only if it returned `Ok`, the
cursor is overwritten with `Some(n)` (on error the `?` propagates before the
assignment, leaving the cursor unchanged). -/
def tick (env : Env) (last_nonce : Option Nat) (n : Nat) : TickResult :=
  if last_nonce = some n then
    ⟨[], [], last_nonce, true⟩
  else
    let d := process_data_change env last_nonce n
    ⟨d.attempted, d.submitted, if d.ok then some n else last_nonce, d.ok⟩

/-- Embeds the `monitor_and_relay` loop over a finite list of observed
counter values (one per poll tick): returns the final cursor and the
concatenated submission trace; a failing tick terminates the loop (the
error propagates out of `monitor_and_relay` and the daemon exits). -/
def runTicks (env : Env) (last_nonce : Option Nat) : List Nat → Option Nat × List (Nat × Nat)
  | [] => (last_nonce, [])
  | n :: rest =>
    let r := tick env last_nonce n
    if r.ok then
      let p := runTicks env r.new_cursor rest
      (p.1, r.submitted ++ p.2)
    else
      (r.new_cursor, r.submitted)

/-- Concrete environment in which every index fails. -/
def envNone : Env := ⟨fun _ => none⟩

/-- Concrete environment in which every index succeeds. -/
def envAll : Env := ⟨fun i => some (100 * (i + 1), i)⟩

/-- Concrete environment failing exactly at index 6. -/
def envFail6 : Env := ⟨fun i => if i = 6 then none else some (i + 1, i)⟩

/-- Concrete environment for the end-to-end scenario: a record of amount 100
to address 10 at index 0 and amount 200 to address 20 at index 1. -/
def envC5 : Env :=
  ⟨fun i => if i = 0 then some (100, 10) else if i = 1 then some (200, 20) else none⟩

section Lemmas

/-- Every attempted index comes from the input index list. -/
theorem processList_attempted_subset (env : Env) (l : List Nat) :
    ∀ i ∈ (processList env l).attempted, i ∈ l := by
  induction l with
  | nil => intro i hi; simp [processList] at hi
  | cons a rest ih =>
    intro i hi
    cases h : env.record a with
    | none =>
      simp [processList, h] at hi
      simp [hi]
    | some r =>
      simp only [processList, h] at hi
      rcases List.mem_cons.mp hi with rfl | hi
      · exact List.mem_cons_self _ _
      · exact List.mem_cons_of_mem _ (ih i hi)

/-- The attempted indices form an initial segment of the input index list. -/
theorem processList_attempted_initial (env : Env) (l : List Nat) :
    (processList env l).attempted <+: l := by
  induction l with
  | nil => simp [processList]
  | cons a rest ih =>
    cases h : env.record a with
    | none =>
      simp only [processList, h]
      exact ⟨rest, rfl⟩
    | some r =>
      simp only [processList, h]
      exact Iff.mpr List.cons_prefix_cons ⟨rfl, ih⟩

/-- A pass that returns `Ok` attempted every index, and each succeeded. -/
theorem processList_ok (env : Env) (l : List Nat)
    (h : (processList env l).ok = true) :
    (processList env l).attempted = l ∧ ∀ i ∈ l, (env.record i).isSome := by
  induction l with
  | nil => simp [processList]
  | cons a rest ih =>
    cases hr : env.record a with
    | none => simp [processList, hr] at h
    | some r =>
      simp only [processList, hr] at h ⊢
      obtain ⟨h1, h2⟩ := ih h
      refine ⟨by rw [h1], ?_⟩
      intro i hi
      rcases List.mem_cons.mp hi with rfl | hi
      · simp [hr]
      · exact h2 i hi

/-- If every index in the list succeeds, the pass returns `Ok` and attempts
the whole list. -/
theorem processList_all_ok (env : Env) (l : List Nat)
    (h : ∀ i ∈ l, (env.record i).isSome) :
    (processList env l).ok = true ∧ (processList env l).attempted = l := by
  induction l with
  | nil => simp [processList]
  | cons a rest ih =>
    have ha := h a (List.mem_cons_self a rest)
    cases hr : env.record a with
    | none => rw [hr] at ha; simp at ha
    | some r =>
      simp only [processList, hr]
      obtain ⟨h1, h2⟩ := ih (fun i hi => h i (List.mem_cons_of_mem a hi))
      exact ⟨h1, by rw [h2]⟩

/-- On a strictly increasing index list, any index attempted after another
implies the earlier one was attempted and succeeded: processing is strictly
sequential with abort at the first failure. -/
theorem processList_earlier_confirmed (env : Env) (l : List Nat)
    (hl : l.Pairwise (· < ·)) (j : Nat)
    (hj : j ∈ (processList env l).attempted) :
    ∀ i ∈ l, i < j → i ∈ (processList env l).attempted ∧ (env.record i).isSome := by
  induction l with
  | nil => intro i hi; simp at hi
  | cons a rest ih =>
    intro i hi hij
    have hlt := (List.pairwise_cons.mp hl).1
    have hrest := (List.pairwise_cons.mp hl).2
    cases hr : env.record a with
    | none =>
      simp [processList, hr] at hj
      rcases List.mem_cons.mp hi with he | hi'
      · rw [he, ← hj] at hij
        exact absurd hij (lt_irrefl j)
      · rw [← hj] at hlt
        exact absurd hij (not_lt.mpr (le_of_lt (hlt i hi')))
    | some r =>
      simp only [processList, hr] at hj ⊢
      rcases List.mem_cons.mp hi with he | hi'
      · rw [he]
        exact ⟨List.mem_cons_self _ _, by simp [hr]⟩
      · have hja : j ≠ a := by
          intro heq
          rw [heq] at hij
          exact absurd (lt_trans (hlt i hi') hij) (lt_irrefl a)
        have hj' : j ∈ (processList env rest).attempted := by
          rcases List.mem_cons.mp hj with heq | hj'
          · exact absurd heq hja
          · exact hj'
        obtain ⟨h1, h2⟩ := ih hrest hj' i hi' hij
        exact ⟨List.mem_cons_of_mem a h1, h2⟩

/-- The first index of a nonempty list is always attempted. -/
theorem processList_head (env : Env) (a : Nat) (rest : List Nat) :
    ((processList env (a :: rest)).attempted).head? = some a := by
  cases hr : env.record a <;> simp [processList, hr]

/-- The little-endian fold agrees with the base-256 digit interpretation. -/
theorem u64_from_le_bytes_eq_ofDigits (bs : List Nat) :
    u64_from_le_bytes bs = Nat.ofDigits 256 bs := by
  induction bs with
  | nil => rfl
  | cons b t ih =>
    simp only [u64_from_le_bytes, List.foldr] at ih ⊢
    rw [Nat.ofDigits_cons, ih]

end Lemmas

/-- Claim C1, counterexample: with cursor `Some 5` and an observed counter of
3, the cursor is overwritten to `Some 3` — a strictly smaller value — with no
transaction submitted, so the cursor does not advance strictly forward. -/
theorem claim_C1_counterexample :
    (tick envNone (some 5) 3).new_cursor = some 3 ∧ ¬ 5 < 3 ∧
    (tick envNone (some 5) 3).submitted = [] := by
  decide

/-- Claim C1, amended: when the observed counter `n` is at least the cursor's
current value `prev`, the cursor either stays unchanged or advances strictly
forward to `Some n`, and it advances only after the pass succeeded, having
attempted every index of `[prev, n)` with each send confirmed. (The original
claim fails when the observed counter is smaller than the cursor: the cursor
is then overwritten backwards with no confirmation.) -/
theorem claim_C1_cursor_forward (env : Env) (prev n : Nat) (hle : prev ≤ n) :
    (tick env (some prev) n).new_cursor = some prev ∨
    ((tick env (some prev) n).new_cursor = some n ∧ prev < n ∧
      (tick env (some prev) n).ok = true ∧
      (tick env (some prev) n).attempted = rangeList prev n ∧
      ∀ i ∈ rangeList prev n, (env.record i).isSome) := by
  by_cases hpn : prev = n
  · subst hpn
    left
    simp [tick]
  · have hne : ¬ (some prev = some n) := by simpa using hpn
    cases hok : (process_data_change env (some prev) n).ok with
    | false =>
      left
      simp [tick, hne, hok]
    | true =>
      right
      have hok' : (processList env (rangeList prev n)).ok = true := hok
      obtain ⟨h1, h2⟩ := processList_ok env (rangeList prev n) hok'
      refine ⟨by simp [tick, hne, hok], lt_of_le_of_ne hle hpn,
        by simp [tick, hne, hok], ?_, h2⟩
      have hatt : (tick env (some prev) n).attempted =
          (processList env (rangeList prev n)).attempted := by
        simp [tick, hne, process_data_change]
      rw [hatt, h1]

/-- Claim C1 witness: instantiated at a concrete forward observation. -/
theorem claim_C1_witness :
    (tick envAll (some 3) 5).new_cursor = some 3 ∨
    ((tick envAll (some 3) 5).new_cursor = some 5 ∧ 3 < 5 ∧
      (tick envAll (some 3) 5).ok = true ∧
      (tick envAll (some 3) 5).attempted = rangeList 3 5 ∧
      ∀ i ∈ rangeList 3 5, (envAll.record i).isSome) :=
  claim_C1_cursor_forward envAll 3 5 (by decide)

/-- Claim C2: if the send for index `i` fails during a draining pass, the
pass returns an error, no index greater than `i` is attempted, the cursor is
left unchanged, and the error terminates the monitor loop: no later tick
runs, whatever counter values would have followed. -/
theorem claim_C2_abort_on_failure (env : Env) (prev n i : Nat)
    (rest : List Nat)
    (hi : i ∈ (tick env (some prev) n).attempted)
    (hfail : env.record i = none) :
    (tick env (some prev) n).ok = false ∧
    (tick env (some prev) n).new_cursor = some prev ∧
    (∀ j ∈ (tick env (some prev) n).attempted, j ≤ i) ∧
    runTicks env (some prev) (n :: rest) =
      (some prev, (tick env (some prev) n).submitted) := by
  by_cases hpn : some prev = some n
  · rw [tick, if_pos hpn] at hi
    simp at hi
  · have hunf : tick env (some prev) n =
        ⟨(processList env (rangeList prev n)).attempted,
         (processList env (rangeList prev n)).submitted,
         if (processList env (rangeList prev n)).ok then some n else some prev,
         (processList env (rangeList prev n)).ok⟩ := by
      rw [tick, if_neg hpn]; rfl
    rw [hunf] at hi
    have hiR : i ∈ rangeList prev n :=
      processList_attempted_subset env (rangeList prev n) i hi
    have hokf : (processList env (rangeList prev n)).ok = false := by
      cases hok : (processList env (rangeList prev n)).ok with
      | false => rfl
      | true =>
        obtain ⟨_, hall⟩ := processList_ok env (rangeList prev n) hok
        have := hall i hiR
        rw [hfail] at this
        simp at this
    have hpw : (rangeList prev n).Pairwise (· < ·) :=
      List.pairwise_lt_range' prev (n - prev)
    have hbound : ∀ j ∈ (tick env (some prev) n).attempted, j ≤ i := by
      intro j hj
      rw [hunf] at hj
      by_contra hgt
      have hij : i < j := not_le.mp hgt
      obtain ⟨_, hsome⟩ :=
        processList_earlier_confirmed env (rangeList prev n) hpw j hj i hiR hij
      rw [hfail] at hsome
      simp at hsome
    refine ⟨by rw [hunf]; exact hokf, by rw [hunf]; simp [hokf], hbound, ?_⟩
    have htickok : (tick env (some prev) n).ok = false := by rw [hunf]; exact hokf
    rw [runTicks, if_neg (by rw [htickok]; simp)]
    rw [hunf]
    simp [hokf]

/-- Claim C2 witness: cursor 5, counter 8, failure at index 6 — index 7 is
never attempted, the cursor stays at `Some 5`, and the loop terminates. -/
theorem claim_C2_witness :
    (tick envFail6 (some 5) 8).ok = false ∧
    (tick envFail6 (some 5) 8).new_cursor = some 5 ∧
    (∀ j ∈ (tick envFail6 (some 5) 8).attempted, j ≤ 6) ∧
    runTicks envFail6 (some 5) (8 :: [9]) =
      (some 5, (tick envFail6 (some 5) 8).submitted) :=
  claim_C2_abort_on_failure envFail6 5 8 6 [9] (by decide) (by decide)

/-- Claim C3, counterexample: with cursor `Some 5` and observed counter 8
(all sends succeeding), the loop attempts exactly the indices 5, 6, 7 — the
range including the cursor value and excluding the new counter — not the
claimed range (5, 8], which would be the indices 6, 7, 8. -/
theorem claim_C3_counterexample :
    (tick envAll (some 5) 8).attempted = [5, 6, 7] ∧
    [5, 6, 7] ≠ [6, 7, 8] ∧
    8 ∉ (tick envAll (some 5) 8).attempted := by
  decide

/-- Claim C3, amended: when the observed counter equals the cursor's value
the tick relays nothing and leaves the cursor unchanged; when it is greater,
the tick drains exactly the half-open range [cursorValue, newValue) — the
indices from the cursor value inclusive up to but excluding the new counter
value — one index at a time (here stated when no send fails, since a failure
aborts the pass early). -/
theorem claim_C3_detect_range (env : Env) (v n : Nat) (hvn : v < n)
    (hall : ∀ i ∈ rangeList v n, (env.record i).isSome) :
    (tick env (some v) v).attempted = [] ∧
    (tick env (some v) v).submitted = [] ∧
    (tick env (some v) v).new_cursor = some v ∧
    (tick env (some v) n).attempted = rangeList v n := by
  have hne : ¬ (some v = some n) := by simpa using Nat.ne_of_lt hvn
  obtain ⟨hok, hatt⟩ := processList_all_ok env (rangeList v n) hall
  refine ⟨by simp [tick], by simp [tick], by simp [tick], ?_⟩
  have h : (tick env (some v) n).attempted =
      (processList env (rangeList v n)).attempted := by
    simp [tick, hne, process_data_change]
  rw [h, hatt]

/-- Claim C3 witness: cursor 5, counter 8, all sends succeeding. -/
theorem claim_C3_witness :
    (tick envAll (some 5) 5).attempted = [] ∧
    (tick envAll (some 5) 5).submitted = [] ∧
    (tick envAll (some 5) 5).new_cursor = some 5 ∧
    (tick envAll (some 5) 8).attempted = rangeList 5 8 :=
  claim_C3_detect_range envAll 5 8 (by decide) (by decide)

/-- Claim C4: within one draining pass the attempted indices are strictly
increasing; an index is attempted only after every smaller index at or above
the cursor was attempted and its send confirmed; and with cursor 5 and
counter 8 (no failures) the pass attempts exactly 5, 6, 7 in that order. -/
theorem claim_C4_order (env : Env) (prev n : Nat) :
    (tick env (some prev) n).attempted.Pairwise (· < ·) ∧
    (∀ j ∈ (tick env (some prev) n).attempted, ∀ i, prev ≤ i → i < j →
      i ∈ (tick env (some prev) n).attempted ∧ (env.record i).isSome) ∧
    ((∀ i ∈ rangeList 5 8, (env.record i).isSome) →
      (tick env (some 5) 8).attempted = [5, 6, 7]) := by
  have hpw : (rangeList prev n).Pairwise (· < ·) :=
    List.pairwise_lt_range' prev (n - prev)
  by_cases hpn : some prev = some n
  · refine ⟨by rw [tick, if_pos hpn]; exact List.Pairwise.nil, ?_, ?_⟩
    · intro j hj
      rw [tick, if_pos hpn] at hj
      simp at hj
    · intro hall
      have hne : ¬ ((some 5 : Option Nat) = some 8) := by decide
      obtain ⟨_, hatt⟩ := processList_all_ok env (rangeList 5 8) hall
      have h : (tick env (some 5) 8).attempted =
          (processList env (rangeList 5 8)).attempted := by
        simp [tick, hne, process_data_change]
      rw [h, hatt]; decide
  · have hatt : (tick env (some prev) n).attempted =
        (processList env (rangeList prev n)).attempted := by
      simp [tick, hpn, process_data_change]
    refine ⟨?_, ?_, ?_⟩
    · rw [hatt]
      exact List.Pairwise.sublist
        (List.IsPrefix.sublist (processList_attempted_initial env (rangeList prev n))) hpw
    · intro j hj i hpi hij
      rw [hatt] at hj ⊢
      have hjR : j ∈ rangeList prev n :=
        processList_attempted_subset env (rangeList prev n) j hj
      have hjb := (List.mem_range'_1).mp hjR
      have hiR : i ∈ rangeList prev n :=
        (List.mem_range'_1).mpr ⟨hpi, lt_trans hij hjb.2⟩
      exact processList_earlier_confirmed env (rangeList prev n) hpw j hj i hiR hij
    · intro hall
      have hne : ¬ ((some 5 : Option Nat) = some 8) := by decide
      obtain ⟨_, hatt8⟩ := processList_all_ok env (rangeList 5 8) hall
      have h : (tick env (some 5) 8).attempted =
          (processList env (rangeList 5 8)).attempted := by
        simp [tick, hne, process_data_change]
      rw [h, hatt8]; decide

/-- Claim C4 witness: the concrete cursor-5, counter-8 drain in an all-success
environment attempts exactly 5, 6, 7 in order. -/
theorem claim_C4_witness : (tick envAll (some 5) 8).attempted = [5, 6, 7] :=
  (claim_C4_order envAll 5 8).2.2 (by decide)

/-- Claim C5, counterexample: in the end-to-end scenario (empty cursor,
counter observed at 0 then at 2, records of amount 100 to address 10 at
index 0 and amount 200 to address 20 at index 1) the two transactions are
submitted in order, but the final cursor is `Some 2` — the counter value —
not `Some 1` as claimed. -/
theorem claim_C5_counterexample :
    (runTicks envC5 none [0, 2]).2 = [(100, 10), (200, 20)] ∧
    (runTicks envC5 none [0, 2]).1 = some 2 ∧
    (some 2 : Option Nat) ≠ some 1 := by
  decide

/-- Claim C5, amended: in the end-to-end scenario the system submits exactly
two destination-chain transactions, in order, with amounts 100 then 200, and
the cursor ends at `Some 2` — the observed counter value, one past the
highest confirmed index 1 (the cursor stores the counter value itself, not
counter minus one). -/
theorem claim_C5_end_to_end :
    runTicks envC5 none [0, 2] = (some 2, [(100, 10), (200, 20)]) := by
  decide

/-- Claim C6: decoding the counter fails exactly when the buffer is shorter
than 16 bytes, and on any buffer of at least 16 bytes it succeeds and returns
the little-endian 64-bit value of bytes 8..16 (the base-256 digit value of
that slice). -/
theorem claim_C6_decode_counter (data : List Nat) :
    (data.length < 16 →
      NonceStatus.from_bytes data = Except.error "Insufficient account data length") ∧
    (16 ≤ data.length →
      NonceStatus.from_bytes data =
        Except.ok ⟨Nat.ofDigits 256 ((data.drop 8).take 8)⟩) := by
  constructor
  · intro h
    rw [NonceStatus.from_bytes, if_pos h]
  · intro h
    rw [NonceStatus.from_bytes, if_neg (not_lt.mpr h),
      u64_from_le_bytes_eq_ofDigits]

/-- Claim C6 witness: a 3-byte buffer fails; a 17-byte buffer decodes the
little-endian value of its bytes 8..16. -/
theorem claim_C6_witness :
    NonceStatus.from_bytes [0, 1, 2] =
      Except.error "Insufficient account data length" ∧
    NonceStatus.from_bytes [9, 9, 9, 9, 9, 9, 9, 9, 1, 2, 0, 0, 0, 0, 0, 0, 7] =
      Except.ok ⟨Nat.ofDigits 256
        (([9, 9, 9, 9, 9, 9, 9, 9, 1, 2, 0, 0, 0, 0, 0, 0, 7].drop 8).take 8)⟩ :=
  ⟨(claim_C6_decode_counter [0, 1, 2]).1 (by decide),
   (claim_C6_decode_counter [9, 9, 9, 9, 9, 9, 9, 9, 1, 2, 0, 0, 0, 0, 0, 0, 7]).2
     (by decide)⟩

/-- Claim C7: the tag decoder maps 0, 1, 2 to Native, Token, NFT respectively
and fails on every other byte value. -/
theorem claim_C7_tag_decode (v : Nat) :
    (v = 0 → MessageType.from_u8 v = Except.ok MessageType.Native) ∧
    (v = 1 → MessageType.from_u8 v = Except.ok MessageType.Token) ∧
    (v = 2 → MessageType.from_u8 v = Except.ok MessageType.NFT) ∧
    (v ≠ 0 → v ≠ 1 → v ≠ 2 →
      MessageType.from_u8 v = Except.error "Invalid MessageType value") := by
  refine ⟨?_, ?_, ?_, ?_⟩
  · rintro rfl; rfl
  · rintro rfl; rfl
  · rintro rfl; rfl
  · intro h0 h1 h2
    match v, h0, h1, h2 with
    | n + 3, _, _, _ => rfl

/-- Claim C7 witness: the decoder evaluated at the three valid tags and at
the invalid tag 7. -/
theorem claim_C7_witness :
    MessageType.from_u8 0 = Except.ok MessageType.Native ∧
    MessageType.from_u8 1 = Except.ok MessageType.Token ∧
    MessageType.from_u8 2 = Except.ok MessageType.NFT ∧
    MessageType.from_u8 7 = Except.error "Invalid MessageType value" :=
  ⟨(claim_C7_tag_decode 0).1 rfl, (claim_C7_tag_decode 1).2.1 rfl,
   (claim_C7_tag_decode 2).2.2.1 rfl,
   (claim_C7_tag_decode 7).2.2.2 (by decide) (by decide) (by decide)⟩

/-- Claim C8: with an empty cursor and a positive observed counter `n`, the
drained indices are an initial segment of 0, 1, ..., n-1 and the first index
attempted is 0. -/
theorem claim_C8_start_from_zero (env : Env) (n : Nat) (hn : 0 < n) :
    (tick env none n).attempted <+: List.range' 0 n ∧
    (tick env none n).attempted.head? = some 0 := by
  have hne : ¬ ((none : Option Nat) = some n) := by simp
  have hR : rangeList 0 n = List.range' 0 n := by
    rw [rangeList, Nat.sub_zero]
  have hatt : (tick env none n).attempted =
      (processList env (rangeList 0 n)).attempted := by
    simp [tick, hne, process_data_change]
  obtain ⟨m, rfl⟩ := Nat.exists_eq_add_of_lt hn
  constructor
  · rw [hatt, hR]
    exact processList_attempted_initial env (List.range' 0 (0 + m + 1))
  · rw [hatt, hR, Nat.zero_add, List.range'_succ]
    exact processList_head env 0 (List.range' 1 m)

/-- Claim C8 witness: empty cursor, counter 2, every send failing — the first
attempted index is still 0. -/
theorem claim_C8_witness :
    (tick envNone none 2).attempted <+: List.range' 0 2 ∧
    (tick envNone none 2).attempted.head? = some 0 :=
  claim_C8_start_from_zero envNone 2 (by decide)

/-- Claim C9: when the observed counter `n` is strictly below the cursor's
value `prev`, the tick attempts nothing and submits nothing yet overwrites
the cursor with the smaller `Some n`; and at startup, an empty cursor with an
observed counter of 0 attempts no transfer and leaves the cursor at
`Some 0`. -/
theorem claim_C9_backward_overwrite (env : Env) (prev n : Nat) (h : n < prev) :
    (tick env (some prev) n).attempted = [] ∧
    (tick env (some prev) n).submitted = [] ∧
    (tick env (some prev) n).new_cursor = some n ∧
    (tick env none 0).attempted = [] ∧
    (tick env none 0).new_cursor = some 0 := by
  have hne : ¬ (some prev = some n) := by
    simpa using Ne.symm (Nat.ne_of_lt h)
  have hR : rangeList prev n = [] := by
    rw [rangeList, Nat.sub_eq_zero_of_le (le_of_lt h)]
    rfl
  have hd : process_data_change env (some prev) n = ⟨[], [], true⟩ := by
    rw [process_data_change]
    show processList env (rangeList prev n) = _
    rw [hR]
    rfl
  have hd0 : process_data_change env none 0 = ⟨[], [], true⟩ := rfl
  have hne0 : ¬ ((none : Option Nat) = some 0) := by simp
  refine ⟨?_, ?_, ?_, ?_, ?_⟩ <;> simp [tick, hne, hne0, hd, hd0]

/-- Claim C9 witness: cursor 5 observing counter 3 — the cursor is rewound to
`Some 3` with nothing attempted. -/
theorem claim_C9_witness :
    (tick envAll (some 5) 3).attempted = [] ∧
    (tick envAll (some 5) 3).submitted = [] ∧
    (tick envAll (some 5) 3).new_cursor = some 3 ∧
    (tick envAll none 0).attempted = [] ∧
    (tick envAll none 0).new_cursor = some 0 :=
  claim_C9_backward_overwrite envAll 5 3 (by decide)

/-- Claim C10: the counter decoder is insensitive to everything except the
buffer length condition and bytes 8..16 — two buffers of length at least 16
agreeing on bytes 8..16 decode to identical results, whatever their bytes
0..8 or beyond 16. -/
theorem claim_C10_noninterference (d1 d2 : List Nat)
    (h1 : 16 ≤ d1.length) (h2 : 16 ≤ d2.length)
    (hagree : (d1.drop 8).take 8 = (d2.drop 8).take 8) :
    NonceStatus.from_bytes d1 = NonceStatus.from_bytes d2 := by
  rw [NonceStatus.from_bytes, NonceStatus.from_bytes,
    if_neg (not_lt.mpr h1), if_neg (not_lt.mpr h2), hagree]

/-- Claim C10 witness: two buffers differing in bytes 0..8 and in a 17th
byte but agreeing on bytes 8..16 decode identically. -/
theorem claim_C10_witness :
    NonceStatus.from_bytes [0, 0, 0, 0, 0, 0, 0, 0, 1, 2, 3, 4, 5, 6, 7, 8] =
      NonceStatus.from_bytes [9, 9, 9, 9, 9, 9, 9, 9, 1, 2, 3, 4, 5, 6, 7, 8, 42] :=
  claim_C10_noninterference
    [0, 0, 0, 0, 0, 0, 0, 0, 1, 2, 3, 4, 5, 6, 7, 8]
    [9, 9, 9, 9, 9, 9, 9, 9, 1, 2, 3, 4, 5, 6, 7, 8, 42]
    (by decide) (by decide) (by decide)
